import Mathlib

/-!
Verification of the SLATE Schematic SDK (slate/schematic_sdk) against its
natural-language specification.

The Python modules `components.py`, `layout.py`, `theme.py`, `svg_renderer.py`,
`cli.py` and `exporters.py` are shallowly embedded below.  Conventions:

* Python `float` values are modelled as exact rationals (`ℚ`); the quantities
  involved in the claims (layer spacing, node positions, Bézier control
  points) are produced by field operations only, so the rational model tracks
  the real-number semantics of the source exactly.
* Python `dict` is modelled by the insertion-ordered association list
  `Dict α` with `dset` (assignment: overwrite in place, else append) and
  `dget` (lookup), matching CPython's ordered-dict semantics.
* `math.sqrt`, `math.cos`/`math.sin` and the `random.seed(42)`-seeded
  `random.uniform(0.5, 1.0)` draws used by the force-directed layout are
  irrational-valued; they are passed to the embedding as explicit function
  parameters (`sqrtF`, `cosF`/`sinF` as functions of the loop index, and a
  draw stream `uniform : ℕ → ℚ`).  Fixing the parameters corresponds to the
  fixed seed in the source.
* Fallible operations (`get_layout_engine` raising `ValueError`) return
  `Except String _`.
-/

/-! ## Ordered-dictionary model of Python `dict` -/

/-- Python `d[k] = v`: overwrite the value in place if `k` is present
(keeping its insertion position), otherwise append a new entry. -/
def dset {α : Type} : List (String × α) → String → α → List (String × α)
  | [], k, v => [(k, v)]
  | (k0, v0) :: rest, k, v =>
      if k0 = k then (k, v) :: rest else (k0, v0) :: dset rest k v

/-- Python `d.get(k)` / `k in d`: first (and, for dicts built with `dset`,
only) entry with key `k`. -/
def dget {α : Type} : List (String × α) → String → Option α
  | [], _ => none
  | (k0, v0) :: rest, k => if k0 = k then some v0 else dget rest k

/-- Last-write-wins lookup over a raw assignment trace. -/
def dlast {α : Type} : List (String × α) → String → Option α
  | [], _ => none
  | (k0, v0) :: rest, k =>
      match dlast rest k with
      | some w => some w
      | none => if k0 = k then some v0 else none

/-- Replay a list of assignments into a dict. -/
def buildDict {α : Type} (entries : List (String × α)) : List (String × α) :=
  entries.foldl (fun d e => dset d e.1 e.2) []

/-- Python `enumerate`, with an explicit start index. -/
def enumFrom {α : Type} (n : ℕ) : List α → List (ℕ × α)
  | [] => []
  | x :: xs => (n, x) :: enumFrom (n + 1) xs

/-- Index of the first occurrence of `a` (length of the list if absent). -/
def idxOf {α : Type} [DecidableEq α] (a : α) : List α → ℕ
  | [] => 0
  | x :: xs => if x = a then 0 else idxOf a xs + 1

/-- Insert into a `≤`-sorted list of integers. -/
def insertI (x : ℤ) : List ℤ → List ℤ
  | [] => [x]
  | y :: ys => if x ≤ y then x :: y :: ys else y :: insertI x ys

/-- Python `sorted` on a list of integers (insertion sort). -/
def sortI : List ℤ → List ℤ
  | [] => []
  | x :: xs => insertI x (sortI xs)

/-- Prefix test on character lists. -/
def leadsList : List Char → List Char → Bool
  | [], _ => true
  | _ :: _, [] => false
  | a :: as, b :: bs => a = b && leadsList as bs

/-- Substring test on character lists (used to state that error messages
name their subject). -/
def containsSub (p : List Char) : List Char → Bool
  | [] => decide (p = [])
  | c :: rest => leadsList p (c :: rest) || containsSub p rest

/-- `strContains s pat`: `pat` occurs contiguously inside `s`. -/
def strContains (s pat : String) : Bool :=
  containsSub pat.data s.data

/-- Minimum of a list of rationals, Python `min(xs)` (0 for `[]`,
which the source never hits). -/
def qMin : List ℚ → ℚ
  | [] => 0
  | x :: xs => xs.foldl min x

/-- Maximum of a list of rationals, Python `max(xs)`. -/
def qMax : List ℚ → ℚ
  | [] => 0
  | x :: xs => xs.foldl max x

/-! ## `components.py` — data model (source: `src/slate/schematic_sdk/components.py`) -/

/-- `ComponentType` enumeration. -/
inductive ComponentType
  | service | database | gpu | ai | api | queue | external | terminal
  deriving DecidableEq, Repr

/-- `ConnectionStyle` enumeration. -/
inductive ConnectionStyle
  | solid | dashed | dotted
  deriving DecidableEq, Repr

/-- `ComponentStatus` enumeration. -/
inductive ComponentStatus
  | active | pending | error | inactive
  deriving DecidableEq, Repr

/-- `Component` dataclass (the fields consulted by the layout engines,
renderer and theme; `ports` and `metadata` are never read by the code under
verification). -/
structure Component where
  id : String
  type : ComponentType
  label : String
  sublabel : String := ""
  position : Option (ℚ × ℚ) := none
  size : Option (ℚ × ℚ) := none
  status : ComponentStatus := .active
  layer : ℤ := 0
  deriving DecidableEq, Repr

/-- `Connection` dataclass. -/
structure Connection where
  id : String
  from_node : String
  to_node : String
  label : String := ""
  style : ConnectionStyle := .solid
  color_override : Option String := none
  deriving DecidableEq, Repr

/-- `SchematicConfig` dataclass (integer fields modelled in `ℚ`, the type
they are coerced to by the float arithmetic that consumes them). -/
structure SchematicConfig where
  width : ℚ := 900
  height : ℚ := 600
  title : String := "SLATE Schematic"
  theme : String := "blueprint"
  layout : String := "hierarchical"
  show_grid : Bool := true
  show_legend : Bool := true
  show_title : Bool := true
  version_badge : String := ""
  padding : ℚ := 40
  layer_spacing : ℚ := 120
  node_spacing : ℚ := 100
  deriving DecidableEq, Repr

/-! ## `layout.py` — layout engines -/

/-- `LayoutResult` dataclass: positions dict plus bounds
`(min x, min y, max x, max y)` (the source comments say "x, y, width,
height" but computes min/max extrema). -/
structure LayoutResult where
  positions : List (String × (ℚ × ℚ))
  bounds : ℚ × ℚ × ℚ × ℚ
  deriving DecidableEq, Repr

/-- Direction parameter of the hierarchical layout. -/
inductive Direction
  | TB | BT | LR | RL
  deriving DecidableEq, Repr

/-- Alignment parameter of the hierarchical layout. -/
inductive Align
  | center | left | right
  deriving DecidableEq, Repr

/-- `HierarchicalLayout.__init__` parameters. -/
structure HierarchicalLayout where
  direction : Direction := .TB
  layer_spacing : ℚ := 120
  node_spacing : ℚ := 100
  align : Align := .center
  deriving DecidableEq, Repr

/-- Distinct layer values in ascending order: the source inserts keys into
the `layers` dict in first-occurrence order and then applies `sorted`;
since sorting forgets the pre-order, `dedup` followed by insertion sort
yields the same list. -/
def hierLayers (components : List Component) : List ℤ :=
  sortI (components.map Component.layer).dedup

/-- Position assigned by `HierarchicalLayout.calculate_positions` to the
component `comp` sitting at `node_idx` within the layer at `layer_idx`
(body of the inner loop, lines 94–122 of `layout.py`). -/
def hierXY (L : HierarchicalLayout) (config : SchematicConfig)
    (num_layers layer_idx num_nodes node_idx : ℕ) (comp : Component) :
    ℚ × ℚ :=
  let padding := config.padding
  let available_width := config.width - padding * 2
  let available_height := config.height - padding * 2
  match L.direction with
  | .TB | .BT =>
      let layer_height := available_height / ((max num_layers 1 : ℕ) : ℚ)
      let y :=
        if L.direction = .TB then
          padding + (layer_idx : ℚ) * layer_height + layer_height / 2
        else
          config.height - padding - (layer_idx : ℚ) * layer_height - layer_height / 2
      let node_width := available_width / ((max num_nodes 1 : ℕ) : ℚ)
      let x :=
        match L.align with
        | .center => padding + (node_idx : ℚ) * node_width + node_width / 2
        | .left =>
            padding + (node_idx : ℚ) * L.node_spacing +
              (match comp.size with | some s => s.1 / 2 | none => 70)
        | .right =>
            config.width - padding -
              ((num_nodes - 1 - node_idx : ℕ) : ℚ) * L.node_spacing -
              (match comp.size with | some s => s.1 / 2 | none => 70)
      (x, y)
  | .LR | .RL =>
      let layer_width := available_width / ((max num_layers 1 : ℕ) : ℚ)
      let x :=
        if L.direction = .LR then
          padding + (layer_idx : ℚ) * layer_width + layer_width / 2
        else
          config.width - padding - (layer_idx : ℚ) * layer_width - layer_width / 2
      let node_height := available_height / ((max num_nodes 1 : ℕ) : ℚ)
      let y := padding + (node_idx : ℚ) * node_height + node_height / 2
      (x, y)

/-- Assignment trace of the two nested loops of
`HierarchicalLayout.calculate_positions`. -/
def hierEntries (L : HierarchicalLayout) (config : SchematicConfig)
    (components : List Component) : List (String × (ℚ × ℚ)) :=
  let sorted_layers := hierLayers components
  let num_layers := sorted_layers.length
  (enumFrom 0 sorted_layers).flatMap fun li =>
    let layer_components := components.filter fun c => c.layer = li.2
    (enumFrom 0 layer_components).map fun ni =>
      (ni.2.id, hierXY L config num_layers li.1 layer_components.length ni.1 ni.2)

/-- The position `calculate_positions` computes for a given component:
its layer's index in the sorted distinct-layer list, and its own index in
its layer group. -/
def hierAssignedPos (L : HierarchicalLayout) (config : SchematicConfig)
    (components : List Component) (c : Component) : ℚ × ℚ :=
  let sorted_layers := hierLayers components
  let grp := components.filter fun d => d.layer = c.layer
  hierXY L config sorted_layers.length (idxOf c.layer sorted_layers)
    grp.length (idxOf c grp) c

/-- The coordinate along which hierarchical layers stack: `y` for `TB`/`BT`,
`x` for `LR`/`RL`. -/
def primaryCoord : Direction → ℚ × ℚ → ℚ
  | .TB, p => p.2
  | .BT, p => p.2
  | .LR, p => p.1
  | .RL, p => p.1

/-- The canvas dimension along the primary axis. -/
def primaryDim : Direction → SchematicConfig → ℚ
  | .TB, config => config.height
  | .BT, config => config.height
  | .LR, config => config.width
  | .RL, config => config.width

/-- Primary-axis coordinate of a layer, a function of the layer index
alone. -/
def layerPrimary (L : HierarchicalLayout) (config : SchematicConfig)
    (num_layers layer_idx : ℕ) : ℚ :=
  let padding := config.padding
  let available_width := config.width - padding * 2
  let available_height := config.height - padding * 2
  match L.direction with
  | .TB =>
      let layer_height := available_height / ((max num_layers 1 : ℕ) : ℚ)
      padding + (layer_idx : ℚ) * layer_height + layer_height / 2
  | .BT =>
      let layer_height := available_height / ((max num_layers 1 : ℕ) : ℚ)
      config.height - padding - (layer_idx : ℚ) * layer_height - layer_height / 2
  | .LR =>
      let layer_width := available_width / ((max num_layers 1 : ℕ) : ℚ)
      padding + (layer_idx : ℚ) * layer_width + layer_width / 2
  | .RL =>
      let layer_width := available_width / ((max num_layers 1 : ℕ) : ℚ)
      config.width - padding - (layer_idx : ℚ) * layer_width - layer_width / 2

/-- Bounds step shared by the layout engines (`min`/`max` over the
assigned coordinates). -/
def boundsOf (positions : List (String × (ℚ × ℚ))) (config : SchematicConfig) :
    ℚ × ℚ × ℚ × ℚ :=
  if positions = [] then (0, 0, config.width, config.height)
  else
    (qMin (positions.map fun p => p.2.1), qMin (positions.map fun p => p.2.2),
     qMax (positions.map fun p => p.2.1), qMax (positions.map fun p => p.2.2))

/-- `HierarchicalLayout.calculate_positions`. -/
def HierarchicalLayout.calculate_positions (L : HierarchicalLayout)
    (components : List Component) (_connections : List Connection)
    (config : SchematicConfig) : LayoutResult :=
  if components = [] then
    ⟨[], (0, 0, config.width, config.height)⟩
  else
    let positions := buildDict (hierEntries L config components)
    ⟨positions, boundsOf positions config⟩

/-- `ForceDirectedLayout.__init__` parameters. -/
structure ForceDirectedLayout where
  iterations : ℕ := 100
  repulsion_strength : ℚ := 500
  attraction_strength : ℚ := 1 / 10
  center_gravity : ℚ := 1 / 10
  damping : ℚ := 9 / 10
  deriving DecidableEq, Repr

/-- `positions[comp.id]` on a dict that contains every component id by
construction (a missing id would be a `KeyError` in the source; the branch
is unreachable, the default only makes the model total). -/
def pget (d : List (String × (ℚ × ℚ))) (k : String) : ℚ × ℚ :=
  (dget d k).getD (0, 0)

/-- `forces[k][0] += dx; forces[k][1] += dy`. -/
def fupd (f : List (String × (ℚ × ℚ))) (k : String) (dx dy : ℚ) :
    List (String × (ℚ × ℚ)) :=
  dset f k ((pget f k).1 + dx, (pget f k).2 + dy)

/-- Inner repulsion loop `for comp2 in components[i + 1:]`. -/
def fdRepulsionInner (F : ForceDirectedLayout) (sqrtF : ℚ → ℚ)
    (pos : List (String × (ℚ × ℚ))) (comp1 : Component)
    (rest : List Component) (forces : List (String × (ℚ × ℚ))) :
    List (String × (ℚ × ℚ)) :=
  rest.foldl
    (fun forces comp2 =>
      let dx := (pget pos comp2.id).1 - (pget pos comp1.id).1
      let dy := (pget pos comp2.id).2 - (pget pos comp1.id).2
      let dist := sqrtF (dx * dx + dy * dy) + 1 / 100
      let force := F.repulsion_strength / (dist * dist)
      let fx := force * dx / dist
      let fy := force * dy / dist
      fupd (fupd forces comp1.id (-fx) (-fy)) comp2.id fx fy)
    forces

/-- Outer repulsion loop `for i, comp1 in enumerate(components)`. -/
def fdRepulsion (F : ForceDirectedLayout) (sqrtF : ℚ → ℚ)
    (pos : List (String × (ℚ × ℚ))) :
    List Component → List (String × (ℚ × ℚ)) → List (String × (ℚ × ℚ))
  | [], forces => forces
  | comp1 :: rest, forces =>
      fdRepulsion F sqrtF pos rest (fdRepulsionInner F sqrtF pos comp1 rest forces)

/-- Attraction along edges. -/
def fdAttraction (F : ForceDirectedLayout) (sqrtF : ℚ → ℚ)
    (pos : List (String × (ℚ × ℚ))) (edges : List (String × String))
    (forces : List (String × (ℚ × ℚ))) : List (String × (ℚ × ℚ)) :=
  edges.foldl
    (fun forces e =>
      if (dget pos e.1).isSome ∧ (dget pos e.2).isSome then
        let dx := (pget pos e.2).1 - (pget pos e.1).1
        let dy := (pget pos e.2).2 - (pget pos e.1).2
        let dist := sqrtF (dx * dx + dy * dy) + 1 / 100
        let force := dist * F.attraction_strength
        let fx := force * dx / dist
        let fy := force * dy / dist
        fupd (fupd forces e.1 fx fy) e.2 (-fx) (-fy)
      else forces)
    forces

/-- Pull toward the canvas center. -/
def fdGravity (F : ForceDirectedLayout) (center_x center_y : ℚ)
    (pos : List (String × (ℚ × ℚ))) (components : List Component)
    (forces : List (String × (ℚ × ℚ))) : List (String × (ℚ × ℚ)) :=
  components.foldl
    (fun forces comp =>
      let dx := center_x - (pget pos comp.id).1
      let dy := center_y - (pget pos comp.id).2
      fupd forces comp.id (dx * F.center_gravity) (dy * F.center_gravity))
    forces

/-- Velocity/position update with damping and clamping to the padded
canvas. -/
def fdApply (F : ForceDirectedLayout) (config : SchematicConfig)
    (components : List Component) (forces : List (String × (ℚ × ℚ)))
    (state : List (String × (ℚ × ℚ)) × List (String × (ℚ × ℚ))) :
    List (String × (ℚ × ℚ)) × List (String × (ℚ × ℚ)) :=
  components.foldl
    (fun state comp =>
      let pos := state.1
      let vel := state.2
      let v := pget vel comp.id
      let f := pget forces comp.id
      let vx := (v.1 + f.1) * F.damping
      let vy := (v.2 + f.2) * F.damping
      let p := pget pos comp.id
      let padding := config.padding + 50
      let px := max padding (min (config.width - padding) (p.1 + vx))
      let py := max padding (min (config.height - padding) (p.2 + vy))
      (dset pos comp.id (px, py), dset vel comp.id (vx, vy)))
    state

/-- One iteration of the simulation loop. -/
def fdStep (F : ForceDirectedLayout) (sqrtF : ℚ → ℚ)
    (config : SchematicConfig) (components : List Component)
    (edges : List (String × String)) (center_x center_y : ℚ)
    (state : List (String × (ℚ × ℚ)) × List (String × (ℚ × ℚ))) :
    List (String × (ℚ × ℚ)) × List (String × (ℚ × ℚ)) :=
  let forces0 := buildDict (components.map fun c => (c.id, ((0 : ℚ), (0 : ℚ))))
  let forces1 := fdRepulsion F sqrtF state.1 components forces0
  let forces2 := fdAttraction F sqrtF state.1 edges forces1
  let forces3 := fdGravity F center_x center_y state.1 components forces2
  fdApply F config components forces3 state

/-- `for _ in range(self.iterations)`. -/
def fdIterate (F : ForceDirectedLayout) (sqrtF : ℚ → ℚ)
    (config : SchematicConfig) (components : List Component)
    (edges : List (String × String)) (center_x center_y : ℚ) :
    ℕ → List (String × (ℚ × ℚ)) × List (String × (ℚ × ℚ)) →
      List (String × (ℚ × ℚ)) × List (String × (ℚ × ℚ))
  | 0, state => state
  | n + 1, state =>
      fdIterate F sqrtF config components edges center_x center_y n
        (fdStep F sqrtF config components edges center_x center_y state)

/-- Initial placement: explicit position if supplied, else a jittered ring
around the canvas center.  `cosF i n`/`sinF i n` stand for
`math.cos((2 * math.pi * i) / n)`/`math.sin(...)` (irrational angles), and
`uniform` is the stream of `random.uniform(0.5, 1.0)` draws after
`random.seed(42)`; the third state part counts the draws consumed. -/
def fdInit (cosF sinF : ℕ → ℕ → ℚ) (uniform : ℕ → ℚ)
    (center_x center_y radius : ℚ) (n : ℕ) (components : List Component) :
    List (String × (ℚ × ℚ)) × List (String × (ℚ × ℚ)) × ℕ :=
  (enumFrom 0 components).foldl
    (fun state ic =>
      let i := ic.1
      let comp := ic.2
      let pos := state.1
      let vel := state.2.1
      let draws := state.2.2
      match comp.position with
      | some p => (dset pos comp.id p, dset vel comp.id (0, 0), draws)
      | none =>
          let x := center_x + radius * cosF i n * uniform draws
          let y := center_y + radius * sinF i n * uniform (draws + 1)
          (dset pos comp.id (x, y), dset vel comp.id (0, 0), draws + 2))
    ([], [], 0)

/-- `ForceDirectedLayout.calculate_positions`. -/
def ForceDirectedLayout.calculate_positions (F : ForceDirectedLayout)
    (sqrtF : ℚ → ℚ) (cosF sinF : ℕ → ℕ → ℚ) (uniform : ℕ → ℚ)
    (components : List Component) (connections : List Connection)
    (config : SchematicConfig) : LayoutResult :=
  if components = [] then
    ⟨[], (0, 0, config.width, config.height)⟩
  else
    let center_x := config.width / 2
    let center_y := config.height / 2
    let radius := min config.width config.height / 3
    let init := fdInit cosF sinF uniform center_x center_y radius
      components.length components
    let edges := connections.map fun c => (c.from_node, c.to_node)
    let final := fdIterate F sqrtF config components edges center_x center_y
      F.iterations (init.1, init.2.1)
    let positions := final.1
    ⟨positions,
     (qMin (positions.map fun p => p.2.1), qMin (positions.map fun p => p.2.2),
      qMax (positions.map fun p => p.2.1), qMax (positions.map fun p => p.2.2))⟩

/-- `GridLayout.__init__` parameters. -/
structure GridLayout where
  columns : ℕ := 4
  cell_width : ℚ := 200
  cell_height : ℚ := 150
  gap : ℚ := 20
  deriving DecidableEq, Repr

/-- `GridLayout.calculate_positions`. -/
def GridLayout.calculate_positions (G : GridLayout)
    (components : List Component) (_connections : List Connection)
    (config : SchematicConfig) : LayoutResult :=
  if components = [] then
    ⟨[], (0, 0, config.width, config.height)⟩
  else
    let positions := buildDict ((enumFrom 0 components).map fun ic =>
      let idx := ic.1
      let col := idx % G.columns
      let row := idx / G.columns
      let x := config.padding + (col : ℚ) * (G.cell_width + G.gap) + G.cell_width / 2
      let y := config.padding + (row : ℚ) * (G.cell_height + G.gap) + G.cell_height / 2
      (ic.2.id, (x, y)))
    ⟨positions,
     (qMin (positions.map fun p => p.2.1), qMin (positions.map fun p => p.2.2),
      qMax (positions.map fun p => p.2.1), qMax (positions.map fun p => p.2.2))⟩

/-- A constructed layout engine, tagged by class. -/
inductive LayoutEngineVal
  | hierarchical (L : HierarchicalLayout)
  | force (F : ForceDirectedLayout)
  | grid (G : GridLayout)
  deriving DecidableEq, Repr

/-- Error text of the `ValueError` raised for an unknown layout name
(`list(engines.keys())` renders with Python quoting). -/
def unknownLayoutMessage (layout_type : String) : String :=
  "Unknown layout type: " ++ layout_type ++
    ". Available: [\x27hierarchical\x27, \x27force\x27, \x27grid\x27]"

/-- `get_layout_engine`: keyword arguments forwarded to the chosen class
are modelled by the three parameter records. -/
def get_layout_engine (layout_type : String) (hp : HierarchicalLayout)
    (fp : ForceDirectedLayout) (gp : GridLayout) :
    Except String LayoutEngineVal :=
  if layout_type = "hierarchical" then .ok (.hierarchical hp)
  else if layout_type = "force" then .ok (.force fp)
  else if layout_type = "grid" then .ok (.grid gp)
  else .error (unknownLayoutMessage layout_type)

/-! ## `theme.py` — themes -/

/-- `SchematicColors` dataclass with its defaults. -/
structure SchematicColors where
  background : String := "#0D1B2A"
  background_gradient_end : String := "#1B3A4B"
  grid_lines : String := "#1B3A4B"
  grid_opacity : ℚ := 3 / 10
  primary : String := "#B85A3C"
  primary_light : String := "#D4785A"
  primary_dark : String := "#8B4530"
  blueprint_accent : String := "#98C1D9"
  blueprint_node : String := "#E0FBFC"
  surface : String := "#1A1816"
  surface_container : String := "#2A2624"
  surface_elevated : String := "#3A3634"
  status_active : String := "#22C55E"
  status_pending : String := "#F59E0B"
  status_error : String := "#EF4444"
  status_inactive : String := "#6B7280"
  service_fill : String := "#2A2624"
  database_fill : String := "#1E3A5F"
  gpu_fill : String := "#3D2914"
  ai_fill : String := "#3D1E10"
  api_fill : String := "#1A2436"
  queue_fill : String := "#2A2436"
  external_fill : String := "transparent"
  text_primary : String := "#E8E2DE"
  text_secondary : String := "#CAC4BF"
  text_muted : String := "#6B7280"
  border_default : String := "#3A3634"
  border_hover : String := "#4A4644"
  connection_default : String := "#B85A3C"
  connection_active : String := "#22C55E"
  connection_muted : String := "#6B7280"
  deriving DecidableEq, Repr

/-- `SchematicTypography` dataclass. -/
structure SchematicTypography where
  font_display : String := "\x27Segoe UI\x27, \x27Inter\x27, system-ui, sans-serif"
  font_mono : String := "\x27Consolas\x27, \x27JetBrains Mono\x27, monospace"
  title_size : ℕ := 24
  subtitle_size : ℕ := 14
  label_size : ℕ := 12
  sublabel_size : ℕ := 10
  badge_size : ℕ := 11
  weight_bold : ℕ := 700
  weight_semibold : ℕ := 600
  weight_regular : ℕ := 400
  deriving DecidableEq, Repr

/-- `SchematicEffects` dataclass. -/
structure SchematicEffects where
  shadow_dx : ℕ := 2
  shadow_dy : ℕ := 4
  shadow_blur : ℕ := 4
  shadow_color : String := "#000000"
  shadow_opacity : ℚ := 3 / 10
  glow_blur : ℕ := 2
  radius_sm : ℕ := 4
  radius_md : ℕ := 8
  radius_lg : ℕ := 12
  deriving DecidableEq, Repr

/-- `SchematicTheme` dataclass. -/
structure SchematicTheme where
  name : String := "blueprint"
  colors : SchematicColors := {}
  typography : SchematicTypography := {}
  effects : SchematicEffects := {}
  deriving DecidableEq, Repr

/-- The `THEMES["blueprint"]` overrides applied via `setattr` in
declaration order (every key exists on `SchematicColors`, so no
`hasattr` guard fails). -/
def blueprintOverrides (c : SchematicColors) : SchematicColors :=
  { c with
    background := "#0D1B2A"
    background_gradient_end := "#1B3A4B"
    grid_lines := "#1B3A4B"
    primary := "#B85A3C" }

/-- The `THEMES["dark"]` overrides. -/
def darkOverrides (c : SchematicColors) : SchematicColors :=
  { c with
    background := "#1A1816"
    background_gradient_end := "#2A2624"
    grid_lines := "#3A3634"
    primary := "#B85A3C" }

/-- The `THEMES["light"]` overrides. -/
def lightOverrides (c : SchematicColors) : SchematicColors :=
  { c with
    background := "#FBF8F6"
    background_gradient_end := "#F0EBE7"
    grid_lines := "#E4E0DC"
    primary := "#B85A3C"
    text_primary := "#1C1B1A"
    text_secondary := "#4D4845"
    surface_container := "#F5F2F0" }

/-- `ThemeManager._build_theme`: start from default colors, apply the
overrides when the name is a `THEMES` key, otherwise leave the defaults
untouched (no exception is raised for an unknown name). -/
def build_theme (theme_name : String) : SchematicTheme :=
  let colors : SchematicColors := {}
  let colors :=
    if theme_name = "blueprint" then blueprintOverrides colors
    else if theme_name = "dark" then darkOverrides colors
    else if theme_name = "light" then lightOverrides colors
    else colors
  { name := theme_name, colors := colors, typography := {}, effects := {} }

/-- `ThemeManager` instance after `__init__`. -/
structure ThemeManager where
  theme_name : String
  theme : SchematicTheme
  deriving DecidableEq, Repr

/-- `ThemeManager(theme_name)`. -/
def ThemeManager.ofName (theme_name : String) : ThemeManager :=
  ⟨theme_name, build_theme theme_name⟩

/-- `ThemeManager.get_status_color`: a four-key dict lookup with the
inactive color as `get` default. -/
def ThemeManager.get_status_color (tm : ThemeManager) (status : String) :
    String :=
  if status = "active" then tm.theme.colors.status_active
  else if status = "pending" then tm.theme.colors.status_pending
  else if status = "error" then tm.theme.colors.status_error
  else if status = "inactive" then tm.theme.colors.status_inactive
  else tm.theme.colors.status_inactive

/-- `ThemeManager.get_component_fill`. -/
def ThemeManager.get_component_fill (tm : ThemeManager)
    (component_type : String) : String :=
  if component_type = "service" then tm.theme.colors.service_fill
  else if component_type = "database" then tm.theme.colors.database_fill
  else if component_type = "gpu" then tm.theme.colors.gpu_fill
  else if component_type = "ai" then tm.theme.colors.ai_fill
  else if component_type = "api" then tm.theme.colors.api_fill
  else if component_type = "queue" then tm.theme.colors.queue_fill
  else if component_type = "external" then tm.theme.colors.external_fill
  else tm.theme.colors.surface_container

/-- `ThemeManager.get_component_border`. -/
def ThemeManager.get_component_border (tm : ThemeManager)
    (_component_type : String) (status : String) : String :=
  if status = "active" then tm.theme.colors.primary
  else tm.get_status_color status

/-! ## `svg_renderer.py` — rendering

The renderer produces one markup string per rendered item by f-string
interpolation; the claims under verification concern which items reach the
output and the geometry of connection paths, so each emitted item is
modelled as a structured record carrying exactly the data interpolated
into its markup. -/

/-- A component that made it into the components layer, with the
coordinates looked up from the position map. -/
structure RenderedComponent where
  comp : Component
  x : ℚ
  y : ℚ
  deriving DecidableEq, Repr

/-- A connection that made it into the connections layer, with resolved
and edge-adjusted endpoints. -/
structure RenderedConnection where
  conn : Connection
  x1 : ℚ
  y1 : ℚ
  x2 : ℚ
  y2 : ℚ
  deriving DecidableEq, Repr

/-- `SVGRenderer._render_components`: skip any component whose id is not a
key of the position map, render the rest in order. -/
def render_components (components : List Component)
    (positions : List (String × (ℚ × ℚ))) : List RenderedComponent :=
  components.filterMap fun comp =>
    (dget positions comp.id).map fun p => ⟨comp, p.1, p.2⟩

/-- `SVGRenderer._render_connections`: skip any connection with an
endpoint id absent from the position map; shift the kept endpoints by half
the width of the respective component when its size is known. -/
def render_connections (connections : List Connection)
    (positions : List (String × (ℚ × ℚ))) (components : List Component) :
    List RenderedConnection :=
  let comp_lookup := buildDict (components.map fun c => (c.id, c))
  connections.filterMap fun conn =>
    match dget positions conn.from_node, dget positions conn.to_node with
    | some from_pos, some to_pos =>
        let from_x :=
          match dget comp_lookup conn.from_node with
          | some fc =>
              match fc.size with
              | some s => from_pos.1 + s.1 / 2
              | none => from_pos.1
          | none => from_pos.1
        let to_x :=
          match dget comp_lookup conn.to_node with
          | some tc =>
              match tc.size with
              | some s => to_pos.1 - s.1 / 2
              | none => to_pos.1
          | none => to_pos.1
        some ⟨conn, from_x, from_pos.2, to_x, to_pos.2⟩
    | _, _ => none

/-- The cubic Bézier `path` data emitted by `SVGRenderer._render_connection`:
`M start C c1, c2, stop`. -/
structure BezierPath where
  start : ℚ × ℚ
  c1 : ℚ × ℚ
  c2 : ℚ × ℚ
  stop : ℚ × ℚ
  deriving DecidableEq, Repr

/-- The `ctrl_offset` local computed by `_render_connection`
(`abs(y2 - y1) * 0.3`); the emitted path never reads it. -/
def ctrl_offset (y1 y2 : ℚ) : ℚ :=
  |y2 - y1| * (3 / 10)

/-- The path emitted by `_render_connection`:
`f"M {x1} {y1} C {mid_x} {y1}, {mid_x} {y2}, {x2} {y2}"`. -/
def render_connection_path (x1 y1 x2 y2 : ℚ) : BezierPath :=
  let mid_x := (x1 + x2) / 2
  ⟨(x1, y1), (mid_x, y1), (mid_x, y2), (x2, y2)⟩

/-- The dynamic layers of the document assembled by `SVGRenderer.render`
(header, defs, background, grid, title, legend and badge are constant with
respect to the claims and elided). -/
structure SVGDoc where
  connections_layer : List RenderedConnection
  components_layer : List RenderedComponent
  deriving DecidableEq, Repr

/-- `SVGRenderer.render` restricted to the two content layers, in the
order the source appends them. -/
def SVGRenderer.render (components : List Component)
    (connections : List Connection)
    (positions : List (String × (ℚ × ℚ))) : SVGDoc :=
  ⟨render_connections connections positions components,
   render_components components positions⟩

/-! ## `cli.py` — the `validate` command

`cmd_validate` parses the input file and then applies purely structural
checks to the parsed mapping; the embedding starts from the parsed
document (file-system access and YAML/JSON parsing are outside the
claims). -/

/-- One entry of the `components`/`nodes` array: the two keys
`cmd_validate` reads, `none` when the key is absent. -/
structure CompEntry where
  id : Option String := none
  label : Option String := none
  deriving DecidableEq, Repr

/-- One entry of the `connections` array: `cmd_validate` accepts either
`from_node`/`to_node` or the alternate keys `from`/`to` (`fromAlt`/`toAlt`
below, since `from` is reserved in Lean). -/
structure ConnEntry where
  from_node : Option String := none
  fromAlt : Option String := none
  to_node : Option String := none
  toAlt : Option String := none
  deriving DecidableEq, Repr

/-- A parsed definition document: each top-level key `none` when absent. -/
structure DefDoc where
  components : Option (List CompEntry) := none
  nodes : Option (List CompEntry) := none
  connections : Option (List ConnEntry) := none
  deriving DecidableEq, Repr

/-- `data.get("components", data.get("nodes", []))`. -/
def docComponents (d : DefDoc) : List CompEntry :=
  d.components.getD (d.nodes.getD [])

/-- `data.get("connections", [])`. -/
def docConnections (d : DefDoc) : List ConnEntry :=
  d.connections.getD []

/-- `node_ids = {c.get("id") for c in ...}` — a set of `Option`s, since a
component without an `id` key contributes `None`. -/
def nodeIds (d : DefDoc) : List (Option String) :=
  (docComponents d).map CompEntry.id

/-- The `errors` list accumulated by `cmd_validate` (in source order:
missing-field check, per-component checks, per-connection checks). -/
def validateErrors (d : DefDoc) : List String :=
  (if d.components = none ∧ d.nodes = none then
     ["Missing \x27components\x27 or \x27nodes\x27 field"]
   else []) ++
  ((enumFrom 0 (docComponents d)).flatMap fun ic =>
    let i := ic.1
    let comp := ic.2
    (if comp.id = none then [s!"Component {i}: missing \x27id\x27 field"] else []) ++
    (if comp.label = none then [s!"Component {i}: missing \x27label\x27 field"] else [])) ++
  ((enumFrom 0 (docConnections d)).flatMap fun ic =>
    let i := ic.1
    let conn := ic.2
    (if conn.from_node ∉ nodeIds d ∧ conn.fromAlt ∉ nodeIds d then
       [s!"Connection {i}: invalid \x27from\x27 node"]
     else []) ++
    (if conn.to_node ∉ nodeIds d ∧ conn.toAlt ∉ nodeIds d then
       [s!"Connection {i}: invalid \x27to\x27 node"]
     else []))

/-- Exit code of `cmd_validate` on a parsed document: 1 when any error
was accumulated, 0 otherwise. -/
def cmd_validate (d : DefDoc) : ℕ :=
  if validateErrors d = [] then 0 else 1

/-! ## `exporters.py` — Base64 export

`Base64Exporter.encode` UTF-8-encodes the SVG string and applies standard
(RFC 4648) base64 with `=` padding, as `base64.b64encode` does.  Bytes are
modelled as naturals below 256. -/

/-- UTF-8 encoding of one scalar value (Python `str.encode("utf-8")`). -/
def utf8EncodeChar (c : Char) : List ℕ :=
  let n := c.toNat
  if n < 128 then [n]
  else if n < 2048 then [192 + n / 64, 128 + n % 64]
  else if n < 65536 then [224 + n / 4096, 128 + n / 64 % 64, 128 + n % 64]
  else [240 + n / 262144, 128 + n / 4096 % 64, 128 + n / 64 % 64, 128 + n % 64]

/-- UTF-8 encoding of a string. -/
def utf8Encode (s : String) : List ℕ :=
  s.data.flatMap utf8EncodeChar

/-- The base64 alphabet. -/
def b64Table : List Char :=
  "ABCDEFGHIJKLMNOPQRSTUVWXYZabcdefghijklmnopqrstuvwxyz0123456789+/".data

/-- Character for a sextet (always in range when fed by the encoder). -/
def b64Char (n : ℕ) : Char :=
  b64Table.getD n '*'

/-- Sextet value of an alphabet character. -/
def b64Val (c : Char) : ℕ :=
  idxOf c b64Table

/-- RFC 4648 base64 of a byte list, with `=` padding
(`base64.b64encode`). -/
def b64encodeBytes : List ℕ → List Char
  | [] => []
  | [a] => [b64Char (a / 4), b64Char (a % 4 * 16), '=', '=']
  | [a, b] =>
      [b64Char (a / 4), b64Char (a % 4 * 16 + b / 16), b64Char (b % 16 * 4), '=']
  | a :: b :: c :: rest =>
      b64Char (a / 4) :: b64Char (a % 4 * 16 + b / 16) ::
      b64Char (b % 16 * 4 + c / 64) :: b64Char (c % 64) :: b64encodeBytes rest

/-- Reassemble bytes from a stream of sextet values (a trailing group of
two or three sextets carries one or two bytes). -/
def sextetsToBytes : List ℕ → List ℕ
  | x0 :: x1 :: x2 :: x3 :: rest =>
      (x0 * 4 + x1 / 16) :: (x1 % 16 * 16 + x2 / 4) :: (x2 % 4 * 64 + x3) ::
        sextetsToBytes rest
  | [x0, x1, x2] => [x0 * 4 + x1 / 16, x1 % 16 * 16 + x2 / 4]
  | [x0, x1] => [x0 * 4 + x1 / 16]
  | _ => []

/-- Standard base64 decoding of a payload string: drop `=` padding, map
characters to sextets, reassemble bytes. -/
def b64decode (payload : String) : List ℕ :=
  sextetsToBytes ((payload.data.filter fun c => c ≠ '=').map b64Val)

/-- The fixed data-URI head emitted by `Base64Exporter.encode`. -/
def dataURIHead : String :=
  "data:image/svg+xml;base64,"

/-- `Base64Exporter.encode`. -/
def Base64Exporter.encode (svg_content : String) : String :=
  dataURIHead ++ String.mk (b64encodeBytes (utf8Encode svg_content))

/-! ## Bookkeeping lemmas: dictionaries, enumeration, sorting -/

theorem dget_dset_self {α : Type} (d : List (String × α)) (k : String) (v : α) :
    dget (dset d k v) k = some v := by
  induction d with
  | nil => simp [dset, dget]
  | cons e rest ih =>
      obtain ⟨k0, v0⟩ := e
      by_cases hk : k0 = k
      · simp [dset, dget, hk]
      · simp [dset, dget, hk, ih]

theorem dget_dset_ne {α : Type} (d : List (String × α)) (k k' : String) (v : α)
    (h : k ≠ k') : dget (dset d k v) k' = dget d k' := by
  induction d with
  | nil => simp [dset, dget, h]
  | cons e rest ih =>
      obtain ⟨k0, v0⟩ := e
      by_cases hk : k0 = k
      · subst hk
        simp [dset, dget, h]
      · simp [dset, hk, dget, ih]

theorem dlast_mem {α : Type} {l : List (String × α)} {k : String} {v : α}
    (h : dlast l k = some v) : (k, v) ∈ l := by
  induction l with
  | nil => simp [dlast] at h
  | cons e rest ih =>
      obtain ⟨k0, v0⟩ := e
      simp only [dlast] at h
      cases hrec : dlast rest k with
      | some w =>
          rw [hrec] at h
          exact List.mem_cons_of_mem _ (ih (hrec.trans h))
      | none =>
          rw [hrec] at h
          by_cases hk : k0 = k
          · subst hk
            simp at h
            subst h
            exact List.mem_cons_self _ _
          · simp [hk] at h

theorem dlast_isSome_of_mem {α : Type} {l : List (String × α)} {k : String}
    {v : α} (h : (k, v) ∈ l) : (dlast l k).isSome := by
  induction l with
  | nil => simp at h
  | cons e rest ih =>
      obtain ⟨k0, v0⟩ := e
      simp only [dlast]
      cases hrec : dlast rest k with
      | some w => simp
      | none =>
          rcases List.mem_cons.mp h with heq | hmem
          · injection heq with h1 h2
            simp [h1.symm]
          · have hs := ih hmem
            rw [hrec] at hs
            simp at hs

theorem dlast_eq_of_unique {α : Type} {l : List (String × α)} {k : String}
    {v : α} (hmem : (k, v) ∈ l) (huniq : ∀ v', (k, v') ∈ l → v' = v) :
    dlast l k = some v := by
  cases hrec : dlast l k with
  | some w => exact congrArg some (huniq w (dlast_mem hrec))
  | none =>
      have hs := dlast_isSome_of_mem hmem
      rw [hrec] at hs
      simp at hs

theorem dget_foldl_dset {α : Type} :
    ∀ (l : List (String × α)) (d : List (String × α)) (k : String),
      dget (l.foldl (fun d e => dset d e.1 e.2) d) k =
        match dlast l k with
        | some v => some v
        | none => dget d k := by
  intro l
  induction l with
  | nil => intro d k; simp [dlast]
  | cons e rest ih =>
      intro d k
      obtain ⟨k0, v0⟩ := e
      simp only [List.foldl_cons, dlast]
      rw [ih]
      cases hrec : dlast rest k with
      | some w => rfl
      | none =>
          by_cases hk : k0 = k
          · subst hk
            simp [dget_dset_self]
          · simp [hk, dget_dset_ne _ _ _ _ hk]

theorem dget_buildDict {α : Type} (l : List (String × α)) (k : String) :
    dget (buildDict l) k = dlast l k := by
  unfold buildDict
  rw [dget_foldl_dset]
  cases dlast l k <;> rfl

theorem mem_of_mem_enumFrom {α : Type} :
    ∀ {n i : ℕ} {a : α} {l : List α}, (i, a) ∈ enumFrom n l → a ∈ l := by
  intro n i a l
  induction l generalizing n with
  | nil => simp [enumFrom]
  | cons x xs ih =>
      intro h
      rcases List.mem_cons.mp h with heq | hmem
      · injection heq with h1 h2
        exact h2 ▸ List.mem_cons_self _ _
      · exact List.mem_cons_of_mem _ (ih hmem)

theorem enumFrom_mem_of_mem {α : Type} [DecidableEq α] {a : α} {l : List α}
    (h : a ∈ l) : ∀ n : ℕ, (n + idxOf a l, a) ∈ enumFrom n l := by
  induction l with
  | nil => simp at h
  | cons x xs ih =>
      intro n
      by_cases hx : x = a
      · simp [enumFrom, idxOf, hx]
      · rcases List.mem_cons.mp h with heq | hmem
        · exact absurd heq.symm hx
        · have := ih hmem (n + 1)
          simp only [enumFrom, idxOf, hx, if_false]
          refine List.mem_cons_of_mem _ ?_
          have harith : n + (idxOf a xs + 1) = n + 1 + idxOf a xs := by omega
          rw [harith]
          exact this

theorem idx_of_mem_enumFrom {α : Type} [DecidableEq α] {a : α} {l : List α}
    (hnd : l.Nodup) :
    ∀ {n i : ℕ}, (i, a) ∈ enumFrom n l → i = n + idxOf a l := by
  induction l with
  | nil => intro n i h; simp [enumFrom] at h
  | cons x xs ih =>
      intro n i h
      rcases List.mem_cons.mp h with heq | hmem
      · injection heq with h1 h2
        subst h2
        simp [h1, idxOf]
      · have hax : a ∈ xs := mem_of_mem_enumFrom hmem
        have hne : x ≠ a := fun hxa => (List.nodup_cons.mp hnd).1 (hxa ▸ hax)
        have := ih (List.nodup_cons.mp hnd).2 hmem
        simp only [idxOf, hne, if_false]
        omega

theorem idxOf_inj {α : Type} [DecidableEq α] {a b : α} {l : List α}
    (ha : a ∈ l) (hb : b ∈ l) (h : idxOf a l = idxOf b l) : a = b := by
  induction l with
  | nil => simp at ha
  | cons x xs ih =>
      simp only [idxOf] at h
      by_cases hxa : x = a <;> by_cases hxb : x = b
      · exact hxa.symm.trans hxb
      · rw [if_pos hxa, if_neg hxb] at h
        omega
      · rw [if_neg hxa, if_pos hxb] at h
        omega
      · rw [if_neg hxa, if_neg hxb] at h
        exact ih ((List.mem_cons.mp ha).resolve_left fun hh => hxa hh.symm)
          ((List.mem_cons.mp hb).resolve_left fun hh => hxb hh.symm) (by omega)

theorem insertI_perm (x : ℤ) (l : List ℤ) : (insertI x l).Perm (x :: l) := by
  induction l with
  | nil => exact List.Perm.refl _
  | cons y ys ih =>
      by_cases h : x ≤ y
      · simp [insertI, h]
      · simp only [insertI, h, if_false]
        exact (ih.cons y).trans (List.Perm.swap x y ys)

theorem sortI_perm (l : List ℤ) : (sortI l).Perm l := by
  induction l with
  | nil => exact List.Perm.refl _
  | cons x xs ih => exact (insertI_perm x (sortI xs)).trans (ih.cons x)

theorem mem_insertI {a x : ℤ} {l : List ℤ} :
    a ∈ insertI x l ↔ a = x ∨ a ∈ l := by
  rw [(insertI_perm x l).mem_iff]
  simp

theorem insertI_sorted {x : ℤ} {l : List ℤ}
    (h : l.Pairwise (· ≤ ·)) : (insertI x l).Pairwise (· ≤ ·) := by
  induction l with
  | nil => simp [insertI]
  | cons y ys ih =>
      rcases List.pairwise_cons.mp h with ⟨hy, hys⟩
      by_cases hxy : x ≤ y
      · rw [insertI, if_pos hxy]
        refine List.pairwise_cons.mpr ⟨?_, h⟩
        intro z hz
        rcases List.mem_cons.mp hz with rfl | hmem
        · exact hxy
        · exact hxy.trans (hy z hmem)
      · rw [insertI, if_neg hxy]
        refine List.pairwise_cons.mpr ⟨?_, ih hys⟩
        intro z hz
        rcases mem_insertI.mp hz with rfl | hmem
        · exact le_of_lt (lt_of_not_le hxy)
        · exact hy z hmem

theorem sortI_sorted (l : List ℤ) : (sortI l).Pairwise (· ≤ ·) := by
  induction l with
  | nil => simp [sortI]
  | cons x xs ih => exact insertI_sorted ih

theorem idxOf_lt_of_sorted {a b : ℤ} {l : List ℤ}
    (hs : l.Pairwise (· ≤ ·)) (ha : a ∈ l) (hb : b ∈ l) (hab : a < b) :
    idxOf a l < idxOf b l := by
  induction l with
  | nil => simp at ha
  | cons x xs ih =>
      rcases List.pairwise_cons.mp hs with ⟨hx, hxs⟩
      simp only [idxOf]
      by_cases hxa : x = a <;> by_cases hxb : x = b
      · exact absurd (hxa.symm.trans hxb) (ne_of_lt hab)
      · rw [if_pos hxa, if_neg hxb]
        omega
      · have haxs : a ∈ xs := (List.mem_cons.mp ha).resolve_left fun hh => hxa hh.symm
        exact absurd (hxb ▸ hx a haxs) (not_le_of_lt hab)
      · rw [if_neg hxa, if_neg hxb]
        have := ih hxs ((List.mem_cons.mp ha).resolve_left fun hh => hxa hh.symm)
          ((List.mem_cons.mp hb).resolve_left fun hh => hxb hh.symm)
        omega

/-! ## Hierarchical layout lemmas -/

theorem mem_hierEntries {L : HierarchicalLayout} {config : SchematicConfig}
    {components : List Component} {c : Component} (hc : c ∈ components) :
    (c.id, hierAssignedPos L config components c) ∈
      hierEntries L config components := by
  have hlay : c.layer ∈ hierLayers components :=
    (sortI_perm _).mem_iff.mpr (List.mem_dedup.mpr (List.mem_map_of_mem _ hc))
  have hcg : c ∈ components.filter fun d => d.layer = c.layer :=
    List.mem_filter.mpr ⟨hc, by simp⟩
  have h1 := enumFrom_mem_of_mem hlay 0
  have h2 := enumFrom_mem_of_mem hcg 0
  rw [Nat.zero_add] at h1 h2
  simp only [hierEntries, hierAssignedPos]
  exact List.mem_flatMap.mpr
    ⟨(idxOf c.layer (hierLayers components), c.layer), h1,
     List.mem_map.mpr ⟨(idxOf c (components.filter fun d => d.layer = c.layer), c),
       h2, rfl⟩⟩

theorem hierEntries_val_unique {L : HierarchicalLayout}
    {config : SchematicConfig} {components : List Component}
    (hids : (components.map Component.id).Nodup) {c : Component}
    (hc : c ∈ components) {v : ℚ × ℚ}
    (hv : (c.id, v) ∈ hierEntries L config components) :
    v = hierAssignedPos L config components c := by
  have hslsnd : (hierLayers components).Nodup :=
    (sortI_perm _).nodup_iff.mpr (List.nodup_dedup _)
  have hcompsnd : components.Nodup := List.Nodup.of_map _ hids
  simp only [hierEntries] at hv
  obtain ⟨li, hli, hmem⟩ := List.mem_flatMap.mp hv
  obtain ⟨i1, Lval⟩ := li
  obtain ⟨ni, hni, heq⟩ := List.mem_map.mp hmem
  obtain ⟨i2, c'⟩ := ni
  simp only [Prod.mk.injEq] at heq
  obtain ⟨hid, hval⟩ := heq
  have hc'mem : c' ∈ components.filter fun d => d.layer = Lval :=
    mem_of_mem_enumFrom hni
  have hc'comps : c' ∈ components := (List.mem_filter.mp hc'mem).1
  have hcc : c' = c := List.inj_on_of_nodup_map hids hc'comps hc hid
  subst hcc
  have hLval : c'.layer = Lval := by
    have := (List.mem_filter.mp hc'mem).2
    simpa using this
  subst hLval
  have hgrnd : (components.filter fun d => d.layer = c'.layer).Nodup :=
    List.Nodup.filter _ hcompsnd
  have hi1 : i1 = idxOf c'.layer (hierLayers components) := by
    have := idx_of_mem_enumFrom hslsnd hli
    omega
  have hi2 : i2 = idxOf c' (components.filter fun d => d.layer = c'.layer) := by
    have := idx_of_mem_enumFrom hgrnd hni
    omega
  subst hi1
  subst hi2
  exact hval.symm

theorem hier_lookup (L : HierarchicalLayout) (config : SchematicConfig)
    {components : List Component} (connections : List Connection)
    (hids : (components.map Component.id).Nodup) {c : Component}
    (hc : c ∈ components) :
    dget (L.calculate_positions components connections config).positions c.id =
      some (hierAssignedPos L config components c) := by
  have hne : components ≠ [] := by
    intro h
    subst h
    simp at hc
  unfold HierarchicalLayout.calculate_positions
  rw [if_neg hne]
  show dget (buildDict (hierEntries L config components)) c.id = _
  rw [dget_buildDict]
  exact dlast_eq_of_unique (mem_hierEntries hc)
    (fun v' hv' => hierEntries_val_unique hids hc hv')

theorem primaryCoord_hierXY (L : HierarchicalLayout) (config : SchematicConfig)
    (nl li nn ni : ℕ) (c : Component) :
    primaryCoord L.direction (hierXY L config nl li nn ni c) =
      layerPrimary L config nl li := by
  cases hd : L.direction <;> cases ha : L.align <;>
    simp [hierXY, primaryCoord, layerPrimary, hd, ha]

theorem layerPrimary_lt (L : HierarchicalLayout) (config : SchematicConfig)
    {nl li1 li2 : ℕ} (hnl : 0 < nl)
    (hpad : 2 * config.padding < primaryDim L.direction config)
    (h : li1 < li2) :
    ((L.direction = .TB ∨ L.direction = .LR) →
      layerPrimary L config nl li1 < layerPrimary L config nl li2) ∧
    ((L.direction = .BT ∨ L.direction = .RL) →
      layerPrimary L config nl li2 < layerPrimary L config nl li1) := by
  have hmax : (max nl 1 : ℕ) = nl := Nat.max_eq_left hnl
  have hnlq : (0 : ℚ) < (nl : ℚ) := by exact_mod_cast hnl
  have hcast : (li1 : ℚ) < (li2 : ℚ) := by exact_mod_cast h
  cases hd : L.direction with
  | TB =>
      rw [hd] at hpad
      simp only [primaryDim] at hpad
      refine ⟨fun _ => ?_, fun hdir => ?_⟩
      · simp only [layerPrimary, hd, hmax]
        have hpos : (0 : ℚ) < (config.height - config.padding * 2) / (nl : ℚ) :=
          div_pos (by linarith) hnlq
        have hmul := mul_lt_mul_of_pos_right hcast hpos
        linarith
      · rcases hdir with hdir | hdir <;> exact absurd hdir (by decide)
  | BT =>
      rw [hd] at hpad
      simp only [primaryDim] at hpad
      refine ⟨fun hdir => ?_, fun _ => ?_⟩
      · rcases hdir with hdir | hdir <;> exact absurd hdir (by decide)
      · simp only [layerPrimary, hd, hmax]
        have hpos : (0 : ℚ) < (config.height - config.padding * 2) / (nl : ℚ) :=
          div_pos (by linarith) hnlq
        have hmul := mul_lt_mul_of_pos_right hcast hpos
        linarith
  | LR =>
      rw [hd] at hpad
      simp only [primaryDim] at hpad
      refine ⟨fun _ => ?_, fun hdir => ?_⟩
      · simp only [layerPrimary, hd, hmax]
        have hpos : (0 : ℚ) < (config.width - config.padding * 2) / (nl : ℚ) :=
          div_pos (by linarith) hnlq
        have hmul := mul_lt_mul_of_pos_right hcast hpos
        linarith
      · rcases hdir with hdir | hdir <;> exact absurd hdir (by decide)
  | RL =>
      rw [hd] at hpad
      simp only [primaryDim] at hpad
      refine ⟨fun hdir => ?_, fun _ => ?_⟩
      · rcases hdir with hdir | hdir <;> exact absurd hdir (by decide)
      · simp only [layerPrimary, hd, hmax]
        have hpos : (0 : ℚ) < (config.width - config.padding * 2) / (nl : ℚ) :=
          div_pos (by linarith) hnlq
        have hmul := mul_lt_mul_of_pos_right hcast hpos
        linarith

/-! ## Claim C1 -/

/-- C1: for any component list with distinct ids laid out hierarchically,
provided the canvas dimension along the primary axis exceeds twice the
padding, two components in the same layer receive the same primary-axis
coordinate (so all layer-0 components share it), and a component in a
strictly smaller layer receives a strictly smaller primary coordinate for
directions `TB`/`LR` and a strictly larger one for `BT`/`RL` (layers stack
monotonically). -/
theorem C1_hier_layers_monotone
    (L : HierarchicalLayout) (config : SchematicConfig)
    (components : List Component) (connections : List Connection)
    (hids : (components.map Component.id).Nodup)
    (hpad : 2 * config.padding < primaryDim L.direction config) :
    ∀ c1 ∈ components, ∀ c2 ∈ components, ∀ p1 p2 : ℚ × ℚ,
      dget (L.calculate_positions components connections config).positions
        c1.id = some p1 →
      dget (L.calculate_positions components connections config).positions
        c2.id = some p2 →
      (c1.layer = c2.layer →
        primaryCoord L.direction p1 = primaryCoord L.direction p2) ∧
      (c1.layer < c2.layer →
        ((L.direction = .TB ∨ L.direction = .LR) →
          primaryCoord L.direction p1 < primaryCoord L.direction p2) ∧
        ((L.direction = .BT ∨ L.direction = .RL) →
          primaryCoord L.direction p2 < primaryCoord L.direction p1)) := by
  intro c1 hc1 c2 hc2 p1 p2 hp1 hp2
  rw [hier_lookup L config connections hids hc1] at hp1
  rw [hier_lookup L config connections hids hc2] at hp2
  have hp1' := Option.some.inj hp1
  have hp2' := Option.some.inj hp2
  subst hp1'
  subst hp2'
  have key1 : primaryCoord L.direction (hierAssignedPos L config components c1) =
      layerPrimary L config (hierLayers components).length
        (idxOf c1.layer (hierLayers components)) := by
    simp only [hierAssignedPos]
    exact primaryCoord_hierXY L config _ _ _ _ c1
  have key2 : primaryCoord L.direction (hierAssignedPos L config components c2) =
      layerPrimary L config (hierLayers components).length
        (idxOf c2.layer (hierLayers components)) := by
    simp only [hierAssignedPos]
    exact primaryCoord_hierXY L config _ _ _ _ c2
  constructor
  · intro hl
    rw [key1, key2, hl]
  · intro hl
    have hmem1 : c1.layer ∈ hierLayers components :=
      (sortI_perm _).mem_iff.mpr (List.mem_dedup.mpr (List.mem_map_of_mem _ hc1))
    have hmem2 : c2.layer ∈ hierLayers components :=
      (sortI_perm _).mem_iff.mpr (List.mem_dedup.mpr (List.mem_map_of_mem _ hc2))
    have hidx := idxOf_lt_of_sorted (sortI_sorted _) hmem1 hmem2 hl
    have hnl : 0 < (hierLayers components).length :=
      List.length_pos.mpr (List.ne_nil_of_mem hmem1)
    rw [key1, key2]
    exact layerPrimary_lt L config hnl hpad hidx

/-- Test fixture for the C1 witness: a layer-0 component. -/
def wC1a : Component :=
  { id := "a", type := .service, label := "A" }

/-- Test fixture for the C1 witness: a layer-1 component. -/
def wC1b : Component :=
  { id := "b", type := .service, label := "B", layer := 1 }

/-- Witness for C1: two components in layers 0 and 1 under the default
`TB` layout on the default canvas receive strictly increasing primary
(`y`) coordinates. -/
theorem C1_witness :
    (2 * ({} : SchematicConfig).padding <
      primaryDim ({} : HierarchicalLayout).direction {}) ∧
    primaryCoord ({} : HierarchicalLayout).direction
        (hierAssignedPos {} {} [wC1a, wC1b] wC1a) <
      primaryCoord ({} : HierarchicalLayout).direction
        (hierAssignedPos {} {} [wC1a, wC1b] wC1b) := by
  have hids : (([wC1a, wC1b] : List Component).map Component.id).Nodup := by
    simp [wC1a, wC1b]
  have hpad : 2 * ({} : SchematicConfig).padding <
      primaryDim ({} : HierarchicalLayout).direction {} := by
    norm_num [primaryDim]
  refine ⟨hpad, ?_⟩
  exact ((C1_hier_layers_monotone {} {} [wC1a, wC1b] [] hids hpad
      wC1a (List.mem_cons_self _ _)
      wC1b (List.mem_cons_of_mem _ (List.mem_cons_self _ _))
      (hierAssignedPos {} {} [wC1a, wC1b] wC1a)
      (hierAssignedPos {} {} [wC1a, wC1b] wC1b)
      (hier_lookup {} {} [] hids (List.mem_cons_self _ _))
      (hier_lookup {} {} [] hids
        (List.mem_cons_of_mem _ (List.mem_cons_self _ _)))).2
    (by simp [wC1a, wC1b])).1 (Or.inl rfl)

/-! ## Claim C5 -/

/-- Counterexample fixture for C5: a layer-0 component of width 200. -/
def c5a : Component :=
  { id := "a", type := .service, label := "A", size := some (200, 60) }

/-- Counterexample fixture for C5: a layer-0 component of width 0. -/
def c5b : Component :=
  { id := "b", type := .service, label := "B", size := some (0, 60) }

/-- The `TB` hierarchical layout with `align="left"` and default spacing. -/
def hierLeft : HierarchicalLayout :=
  { align := .left }

/-- Counterexample to C5: under `align="left"` (one of the alignment modes
the claim quantifies over) two distinct layer-0 components of widths 200
and 0 both receive `x = 140` on the default canvas — the claim's
"different x coordinates" fails. -/
theorem C5_counterexample :
    c5a ≠ c5b ∧ c5a.layer = 0 ∧ c5b.layer = 0 ∧ hierLeft.direction = .TB ∧
    dget (hierLeft.calculate_positions [c5a, c5b] [] {}).positions c5a.id =
      some ((140 : ℚ), (300 : ℚ)) ∧
    dget (hierLeft.calculate_positions [c5a, c5b] [] {}).positions c5b.id =
      some ((140 : ℚ), (300 : ℚ)) := by
  have hids : (([c5a, c5b] : List Component).map Component.id).Nodup := by
    simp [c5a, c5b]
  refine ⟨by simp [c5a, c5b], rfl, rfl, rfl, ?_, ?_⟩
  · rw [hier_lookup hierLeft {} [] hids (List.mem_cons_self _ _)]
    norm_num [hierAssignedPos, hierXY, hierLayers, hierLeft, c5a, c5b,
      sortI, insertI, idxOf, List.dedup_cons_of_mem, List.dedup_cons_of_not_mem]
  · rw [hier_lookup hierLeft {} [] hids
      (List.mem_cons_of_mem _ (List.mem_cons_self _ _))]
    norm_num [hierAssignedPos, hierXY, hierLayers, hierLeft, c5a, c5b,
      sortI, insertI, idxOf, List.dedup_cons_of_mem, List.dedup_cons_of_not_mem]

/-- C5 (amended): with direction `TB` and alignment `center`, provided the
canvas width exceeds twice the padding, two distinct components with the
same layer (in particular both layer 0) receive the same `y` and different
`x` coordinates, for all component sizes. -/
theorem C5_center_same_y_distinct_x
    (L : HierarchicalLayout) (config : SchematicConfig)
    (components : List Component) (connections : List Connection)
    (hdir : L.direction = .TB) (halign : L.align = .center)
    (hids : (components.map Component.id).Nodup)
    (hpad : 2 * config.padding < config.width) :
    ∀ c1 ∈ components, ∀ c2 ∈ components,
      c1 ≠ c2 → c1.layer = c2.layer →
      ∀ p1 p2 : ℚ × ℚ,
        dget (L.calculate_positions components connections config).positions
          c1.id = some p1 →
        dget (L.calculate_positions components connections config).positions
          c2.id = some p2 →
        p1.2 = p2.2 ∧ p1.1 ≠ p2.1 := by
  intro c1 hc1 c2 hc2 hne hl p1 p2 hp1 hp2
  rw [hier_lookup L config connections hids hc1] at hp1
  rw [hier_lookup L config connections hids hc2] at hp2
  have hp1' := Option.some.inj hp1
  have hp2' := Option.some.inj hp2
  subst hp1'
  subst hp2'
  have hgrp2eq : (components.filter fun d => d.layer = c2.layer) =
      (components.filter fun d => d.layer = c1.layer) := by rw [hl]
  have hmem1 : c1 ∈ components.filter fun d => d.layer = c1.layer :=
    List.mem_filter.mpr ⟨hc1, by simp⟩
  have hmem2 : c2 ∈ components.filter fun d => d.layer = c1.layer :=
    List.mem_filter.mpr ⟨hc2, by simp [hl.symm]⟩
  have e1 : hierAssignedPos L config components c1 =
      (config.padding +
        (idxOf c1 (components.filter fun d => d.layer = c1.layer) : ℚ) *
          ((config.width - config.padding * 2) /
            ((max (components.filter fun d => d.layer = c1.layer).length 1 : ℕ) : ℚ)) +
        ((config.width - config.padding * 2) /
            ((max (components.filter fun d => d.layer = c1.layer).length 1 : ℕ) : ℚ)) / 2,
       config.padding +
        (idxOf c1.layer (hierLayers components) : ℚ) *
          ((config.height - config.padding * 2) /
            ((max (hierLayers components).length 1 : ℕ) : ℚ)) +
        ((config.height - config.padding * 2) /
            ((max (hierLayers components).length 1 : ℕ) : ℚ)) / 2) := by
    simp only [hierAssignedPos, hierXY, hdir, halign, if_true]
  have e2 : hierAssignedPos L config components c2 =
      (config.padding +
        (idxOf c2 (components.filter fun d => d.layer = c1.layer) : ℚ) *
          ((config.width - config.padding * 2) /
            ((max (components.filter fun d => d.layer = c1.layer).length 1 : ℕ) : ℚ)) +
        ((config.width - config.padding * 2) /
            ((max (components.filter fun d => d.layer = c1.layer).length 1 : ℕ) : ℚ)) / 2,
       config.padding +
        (idxOf c2.layer (hierLayers components) : ℚ) *
          ((config.height - config.padding * 2) /
            ((max (hierLayers components).length 1 : ℕ) : ℚ)) +
        ((config.height - config.padding * 2) /
            ((max (hierLayers components).length 1 : ℕ) : ℚ)) / 2) := by
    simp only [hierAssignedPos, hierXY, hdir, halign, hgrp2eq, if_true]
  rw [e1, e2]
  have hlen : 0 < (components.filter fun d => d.layer = c1.layer).length :=
    List.length_pos.mpr (List.ne_nil_of_mem hmem1)
  have hmax : (max (components.filter fun d => d.layer = c1.layer).length 1 : ℕ) =
      (components.filter fun d => d.layer = c1.layer).length :=
    Nat.max_eq_left hlen
  have hnw : (0 : ℚ) < (config.width - config.padding * 2) /
      ((max (components.filter fun d => d.layer = c1.layer).length 1 : ℕ) : ℚ) := by
    rw [hmax]
    exact div_pos (by linarith) (by exact_mod_cast hlen)
  constructor
  · simp only [hl]
  · intro hx
    have hx' : config.padding +
        (idxOf c1 (components.filter fun d => d.layer = c1.layer) : ℚ) *
          ((config.width - config.padding * 2) /
            ((max (components.filter fun d => d.layer = c1.layer).length 1 : ℕ) : ℚ)) +
        ((config.width - config.padding * 2) /
            ((max (components.filter fun d => d.layer = c1.layer).length 1 : ℕ) : ℚ)) / 2 =
      config.padding +
        (idxOf c2 (components.filter fun d => d.layer = c1.layer) : ℚ) *
          ((config.width - config.padding * 2) /
            ((max (components.filter fun d => d.layer = c1.layer).length 1 : ℕ) : ℚ)) +
        ((config.width - config.padding * 2) /
            ((max (components.filter fun d => d.layer = c1.layer).length 1 : ℕ) : ℚ)) / 2 := hx
    have hnw0 : ((config.width - config.padding * 2) /
        ((max (components.filter fun d => d.layer = c1.layer).length 1 : ℕ) : ℚ)) ≠ 0 :=
      ne_of_gt hnw
    have hmul : (idxOf c1 (components.filter fun d => d.layer = c1.layer) : ℚ) *
          ((config.width - config.padding * 2) /
            ((max (components.filter fun d => d.layer = c1.layer).length 1 : ℕ) : ℚ)) =
        (idxOf c2 (components.filter fun d => d.layer = c1.layer) : ℚ) *
          ((config.width - config.padding * 2) /
            ((max (components.filter fun d => d.layer = c1.layer).length 1 : ℕ) : ℚ)) := by
      linarith
    have hcast : (idxOf c1 (components.filter fun d => d.layer = c1.layer) : ℚ) =
        (idxOf c2 (components.filter fun d => d.layer = c1.layer) : ℚ) :=
      mul_right_cancel₀ hnw0 hmul
    have hidx : idxOf c1 (components.filter fun d => d.layer = c1.layer) =
        idxOf c2 (components.filter fun d => d.layer = c1.layer) := by
      exact_mod_cast hcast
    exact hne (idxOf_inj hmem1 hmem2 hidx)

/-- Witness fixture for C5: a layer-0 component of width 200. -/
def wC5c : Component :=
  { id := "a", type := .service, label := "A", size := some (200, 60) }

/-- Witness fixture for C5: a layer-0 component of width 0. -/
def wC5d : Component :=
  { id := "b", type := .service, label := "B", size := some (0, 60) }

/-- Witness for the amended C5: under the default (`TB`, `center`) layout
the same two sizes that defeat `align="left"` get the same `y` and
different `x`. -/
theorem C5_witness :
    (2 * ({} : SchematicConfig).padding < ({} : SchematicConfig).width) ∧
    (hierAssignedPos {} {} [wC5c, wC5d] wC5c).2 =
      (hierAssignedPos {} {} [wC5c, wC5d] wC5d).2 ∧
    (hierAssignedPos {} {} [wC5c, wC5d] wC5c).1 ≠
      (hierAssignedPos {} {} [wC5c, wC5d] wC5d).1 := by
  have hids : (([wC5c, wC5d] : List Component).map Component.id).Nodup := by
    simp [wC5c, wC5d]
  have hpad : 2 * ({} : SchematicConfig).padding < ({} : SchematicConfig).width := by
    norm_num
  refine ⟨hpad, ?_⟩
  exact C5_center_same_y_distinct_x {} {} [wC5c, wC5d] [] rfl rfl hids hpad
    wC5c (List.mem_cons_self _ _)
    wC5d (List.mem_cons_of_mem _ (List.mem_cons_self _ _))
    (by simp [wC5c, wC5d]) rfl
    (hierAssignedPos {} {} [wC5c, wC5d] wC5c)
    (hierAssignedPos {} {} [wC5c, wC5d] wC5d)
    (hier_lookup {} {} [] hids (List.mem_cons_self _ _))
    (hier_lookup {} {} [] hids
      (List.mem_cons_of_mem _ (List.mem_cons_self _ _)))

/-! ## Claim C6 -/

theorem containsSub_append_right {p l2 : List Char} (l1 : List Char)
    (h : containsSub p l2 = true) : containsSub p (l1 ++ l2) = true := by
  induction l1 with
  | nil => simpa using h
  | cons c rest ih =>
      simp only [List.cons_append, containsSub, Bool.or_eq_true]
      exact Or.inr ih

theorem leadsList_self_append (p r : List Char) :
    leadsList p (p ++ r) = true := by
  induction p with
  | nil => rfl
  | cons a as ih => simp [leadsList, ih]

theorem containsSub_self_append (p r : List Char) :
    containsSub p (p ++ r) = true := by
  cases p with
  | nil =>
      cases r with
      | nil => rfl
      | cons c cs =>
          simp only [List.nil_append, containsSub, Bool.or_eq_true]
          exact Or.inl (by rfl)
  | cons a as =>
      simp only [List.cons_append, containsSub, Bool.or_eq_true]
      exact Or.inl (by simpa using leadsList_self_append (a :: as) r)

/-- C6: `get_layout_engine` returns an `error` for every name outside
`{hierarchical, force, grid}` whose message enumerates all three valid
choices (no silent fallback), and returns the matching engine class
instance for each of the three valid names. -/
theorem C6_layout_factory (layout_type : String) (hp : HierarchicalLayout)
    (fp : ForceDirectedLayout) (gp : GridLayout) :
    (layout_type ∉ (["hierarchical", "force", "grid"] : List String) →
      get_layout_engine layout_type hp fp gp =
        Except.error (unknownLayoutMessage layout_type) ∧
      ∀ nm ∈ (["hierarchical", "force", "grid"] : List String),
        strContains (unknownLayoutMessage layout_type) nm = true) ∧
    get_layout_engine "hierarchical" hp fp gp = .ok (.hierarchical hp) ∧
    get_layout_engine "force" hp fp gp = .ok (.force fp) ∧
    get_layout_engine "grid" hp fp gp = .ok (.grid gp) := by
  refine ⟨fun hout => ⟨?_, ?_⟩, rfl, rfl, rfl⟩
  · simp only [List.mem_cons, List.mem_singleton, not_or] at hout
    obtain ⟨h1, h2, h3⟩ := hout
    simp [get_layout_engine, h1, h2, h3]
  · intro nm hnm
    have hdata : (unknownLayoutMessage layout_type).data =
        ("Unknown layout type: " ++ layout_type).data ++
          ". Available: [\x27hierarchical\x27, \x27force\x27, \x27grid\x27]".data := by
      simp [unknownLayoutMessage, ← String.append_assoc]
    simp only [List.mem_cons, List.not_mem_nil, or_false] at hnm
    rcases hnm with rfl | rfl | rfl
    · rw [strContains, hdata]
      exact containsSub_append_right _ (by decide)
    · rw [strContains, hdata]
      exact containsSub_append_right _ (by decide)
    · rw [strContains, hdata]
      exact containsSub_append_right _ (by decide)

/-- Witness for C6: the name `banana` is rejected with the enumerating
message, and the valid name `force` is accepted. -/
theorem C6_witness :
    ("banana" ∉ (["hierarchical", "force", "grid"] : List String)) ∧
    get_layout_engine "banana" {} {} {} =
      Except.error (unknownLayoutMessage "banana") ∧
    strContains (unknownLayoutMessage "banana") "force" = true ∧
    get_layout_engine "force" {} {} {} = .ok (.force {}) := by
  have hmem : ("banana" ∉ (["hierarchical", "force", "grid"] : List String)) := by
    decide
  have h := C6_layout_factory "banana" {} {} {}
  exact ⟨hmem, (h.1 hmem).1,
    (h.1 hmem).2 "force" (by decide), h.2.2.1⟩

/-! ## Claim C7 -/

/-- C7: constructing a `ThemeManager` with any name outside
`{blueprint, dark, light}` succeeds (the embedding is total, as the source
raises nothing) and yields exactly the baseline blueprint color palette. -/
theorem C7_unknown_theme_blueprint_palette (name : String)
    (h : name ∉ (["blueprint", "dark", "light"] : List String)) :
    (ThemeManager.ofName name).theme.colors =
      (ThemeManager.ofName "blueprint").theme.colors := by
  simp only [List.mem_cons, List.not_mem_nil, or_false, not_or] at h
  obtain ⟨h1, h2, h3⟩ := h
  simp [ThemeManager.ofName, build_theme, h1, h2, h3, blueprintOverrides]

/-- Witness for C7: the unknown name `neon` produces the blueprint
palette. -/
theorem C7_witness :
    ("neon" ∉ (["blueprint", "dark", "light"] : List String)) ∧
    (ThemeManager.ofName "neon").theme.colors =
      (ThemeManager.ofName "blueprint").theme.colors :=
  ⟨by decide, C7_unknown_theme_blueprint_palette "neon" (by decide)⟩

/-! ## Claim C10 -/

/-- C10: `get_component_border` ignores its `component_type` argument
entirely: the border is the theme primary color for status `active` and
`get_status_color(status)` otherwise, with every status outside the four
known ones mapping to the inactive status color. -/
theorem C10_border_ignores_type (tm : ThemeManager) (t1 t2 s : String) :
    tm.get_component_border t1 s = tm.get_component_border t2 s ∧
    tm.get_component_border t1 s =
      (if s = "active" then tm.theme.colors.primary
       else tm.get_status_color s) ∧
    (s ∉ (["active", "pending", "error", "inactive"] : List String) →
      tm.get_status_color s = tm.theme.colors.status_inactive) := by
  refine ⟨rfl, rfl, fun h => ?_⟩
  simp only [List.mem_cons, List.not_mem_nil, or_false, not_or] at h
  obtain ⟨h1, h2, h3, h4⟩ := h
  simp [ThemeManager.get_status_color, h1, h2, h3, h4]

/-- Witness for C10: for the unknown status `broken`, the border of a
`gpu` and a `database` component coincide and equal the inactive status
color. -/
theorem C10_witness :
    (ThemeManager.ofName "blueprint").get_component_border "gpu" "broken" =
      (ThemeManager.ofName "blueprint").get_component_border "database" "broken" ∧
    ("broken" ∉ (["active", "pending", "error", "inactive"] : List String)) ∧
    (ThemeManager.ofName "blueprint").get_status_color "broken" =
      (ThemeManager.ofName "blueprint").theme.colors.status_inactive := by
  have h := C10_border_ignores_type (ThemeManager.ofName "blueprint")
    "gpu" "database" "broken"
  exact ⟨h.1, by decide, h.2.2 (by decide)⟩

/-! ## Claim C4 -/

/-- Counterexample to C4: there is no proportionality constant relating
the control points' horizontal offset to the vertical distance — at
endpoints `(0,0)` and `(100,0)` the vertical distance is `0` yet the first
control point sits `50` to the right of the start (the computed
`ctrl_offset` local is never used in the emitted path). -/
theorem C4_counterexample :
    ¬ ∃ k : ℚ, ∀ x1 y1 x2 y2 : ℚ,
      |(render_connection_path x1 y1 x2 y2).c1.1 - x1| = k * |y2 - y1| := by
  rintro ⟨k, hk⟩
  have h := hk 0 0 100 0
  simp only [render_connection_path] at h
  norm_num at h

/-- C4 (amended): the emitted connection element is a cubic Bézier whose
control points sit at the horizontal midpoint `(x1+x2)/2` at the source
and target heights respectively — a horizontal S-curve whose control
offset is half the horizontal distance `|x2 - x1| / 2`, independent of the
vertical distance (`ctrl_offset = 0.3·|y2-y1|` is computed but unused). -/
theorem C4_midpoint_s_curve (x1 y1 x2 y2 : ℚ) :
    render_connection_path x1 y1 x2 y2 =
      ⟨(x1, y1), ((x1 + x2) / 2, y1), ((x1 + x2) / 2, y2), (x2, y2)⟩ ∧
    |(render_connection_path x1 y1 x2 y2).c1.1 - x1| = |x2 - x1| / 2 ∧
    |x2 - (render_connection_path x1 y1 x2 y2).c2.1| = |x2 - x1| / 2 ∧
    (render_connection_path x1 y1 x2 y2).c1.2 = y1 ∧
    (render_connection_path x1 y1 x2 y2).c2.2 = y2 := by
  refine ⟨rfl, ?_, ?_, rfl, rfl⟩
  · have h : (render_connection_path x1 y1 x2 y2).c1.1 - x1 = (x2 - x1) / 2 := by
      simp only [render_connection_path]
      ring
    rw [h, abs_div]
    norm_num
  · have h : x2 - (render_connection_path x1 y1 x2 y2).c2.1 = (x2 - x1) / 2 := by
      simp only [render_connection_path]
      ring
    rw [h, abs_div]
    norm_num

/-! ## Claim C3 -/

/-- C3: `SVGRenderer.render` is total (the embedding is a function — the
source raises nothing on missing ids), a component appears in the
components layer exactly when its id is a key of the position map, and a
connection appears in the connections layer exactly when both its endpoint
ids are keys of the position map; every other item is silently omitted. -/
theorem C3_render_skips_missing_positions
    (components : List Component) (connections : List Connection)
    (positions : List (String × (ℚ × ℚ))) :
    (∀ c ∈ components,
      ((∃ rc ∈ (SVGRenderer.render components connections positions).components_layer,
          rc.comp = c) ↔ (dget positions c.id).isSome)) ∧
    (∀ conn ∈ connections,
      ((∃ rc ∈ (SVGRenderer.render components connections positions).connections_layer,
          rc.conn = conn) ↔
        ((dget positions conn.from_node).isSome ∧
         (dget positions conn.to_node).isSome))) := by
  constructor
  · intro c hc
    constructor
    · rintro ⟨rc, hrc, hcomp⟩
      simp only [SVGRenderer.render, render_components] at hrc
      obtain ⟨a, _, ha⟩ := List.mem_filterMap.mp hrc
      cases hget : dget positions a.id with
      | none => rw [hget] at ha; simp at ha
      | some p =>
          rw [hget] at ha
          rw [show Option.map (fun p => (⟨a, p.1, p.2⟩ : RenderedComponent))
              (some p) = some ⟨a, p.1, p.2⟩ from rfl] at ha
          injection ha with ha
          have : a = c := by rw [← hcomp, ← ha]
          rw [← this, hget]
          rfl
    · intro hsome
      obtain ⟨p, hp⟩ := Option.isSome_iff_exists.mp hsome
      refine ⟨⟨c, p.1, p.2⟩, ?_, rfl⟩
      simp only [SVGRenderer.render, render_components]
      exact List.mem_filterMap.mpr ⟨c, hc, by rw [hp]; rfl⟩
  · intro conn hconn
    constructor
    · rintro ⟨rc, hrc, hcn⟩
      simp only [SVGRenderer.render, render_connections] at hrc
      obtain ⟨a, haconn, ha⟩ := List.mem_filterMap.mp hrc
      cases hf : dget positions a.from_node with
      | none => rw [hf] at ha; simp at ha
      | some fp =>
          cases ht : dget positions a.to_node with
          | none => rw [hf, ht] at ha; simp at ha
          | some tp =>
              rw [hf, ht] at ha
              injection ha with ha
              have haeq : a = conn := by rw [← hcn, ← ha]
              rw [← haeq, hf, ht]
              exact ⟨rfl, rfl⟩
    · rintro ⟨hf, ht⟩
      obtain ⟨fp, hfp⟩ := Option.isSome_iff_exists.mp hf
      obtain ⟨tp, htp⟩ := Option.isSome_iff_exists.mp ht
      simp only [SVGRenderer.render, render_connections]
      refine ⟨⟨conn,
          (match dget (buildDict (components.map fun c => (c.id, c)))
              conn.from_node with
            | some fc =>
                match fc.size with
                | some s => fp.1 + s.1 / 2
                | none => fp.1
            | none => fp.1),
          fp.2,
          (match dget (buildDict (components.map fun c => (c.id, c)))
              conn.to_node with
            | some tc =>
                match tc.size with
                | some s => tp.1 - s.1 / 2
                | none => tp.1
            | none => tp.1),
          tp.2⟩,
        List.mem_filterMap.mpr ⟨conn, hconn, ?_⟩, rfl⟩
      rw [hfp, htp]

/-- Witness fixture for C3: a positioned component. -/
def wC3a : Component :=
  { id := "a", type := .service, label := "A" }

/-- Witness fixture for C3: a component absent from the position map. -/
def wC3b : Component :=
  { id := "b", type := .service, label := "B" }

/-- Witness fixture for C3: a connection whose target has no position. -/
def wC3conn : Connection :=
  { id := "c1", from_node := "a", to_node := "b" }

/-- Witness for C3: with only `a` positioned, component `a` is rendered,
component `b` and the `a → b` connection are silently omitted. -/
theorem C3_witness :
    (∃ rc ∈ (SVGRenderer.render [wC3a, wC3b] [wC3conn]
        [("a", ((1 : ℚ), (2 : ℚ)))]).components_layer, rc.comp = wC3a) ∧
    (¬ ∃ rc ∈ (SVGRenderer.render [wC3a, wC3b] [wC3conn]
        [("a", ((1 : ℚ), (2 : ℚ)))]).components_layer, rc.comp = wC3b) ∧
    (¬ ∃ rc ∈ (SVGRenderer.render [wC3a, wC3b] [wC3conn]
        [("a", ((1 : ℚ), (2 : ℚ)))]).connections_layer, rc.conn = wC3conn) := by
  have h := C3_render_skips_missing_positions [wC3a, wC3b] [wC3conn]
    [("a", ((1 : ℚ), (2 : ℚ)))]
  refine ⟨(h.1 wC3a (List.mem_cons_self _ _)).mpr rfl, ?_, ?_⟩
  · intro hex
    have hb := (h.1 wC3b
      (List.mem_cons_of_mem _ (List.mem_cons_self _ _))).mp hex
    exact Bool.noConfusion hb
  · intro hex
    have hc := (h.2 wC3conn (List.mem_cons_self _ _)).mp hex
    exact Bool.noConfusion hc.2

/-! ## Claim C9 -/

theorem b64Val_b64Char : ∀ n, n < 64 → b64Val (b64Char n) = n := by decide

theorem b64Char_ne_pad : ∀ n, n < 64 → b64Char n ≠ '=' := by decide

theorem b64_roundtrip_bytes :
    ∀ bs : List ℕ, (∀ x ∈ bs, x < 256) →
      sextetsToBytes (((b64encodeBytes bs).filter fun c => c ≠ '=').map b64Val)
        = bs
  | [], _ => rfl
  | [a], h => by
      have ha : a < 256 := h a (by simp)
      have h1 : b64Char (a / 4) ≠ '=' := b64Char_ne_pad _ (by omega)
      have h2 : b64Char (a % 4 * 16) ≠ '=' := b64Char_ne_pad _ (by omega)
      have e1 : b64Val (b64Char (a / 4)) = a / 4 := b64Val_b64Char _ (by omega)
      have e2 : b64Val (b64Char (a % 4 * 16)) = a % 4 * 16 :=
        b64Val_b64Char _ (by omega)
      simp only [b64encodeBytes, List.filter_cons, List.filter_nil, h1, h2,
        decide_eq_true_eq, ne_eq, not_true_eq_false, not_false_eq_true,
        if_true, if_false, List.map_cons, List.map_nil, e1, e2,
        sextetsToBytes]
      have : a / 4 * 4 + a % 4 * 16 / 16 = a := by omega
      rw [this]
  | [a, b], h => by
      have ha : a < 256 := h a (by simp)
      have hb : b < 256 := h b (by simp)
      have h1 : b64Char (a / 4) ≠ '=' := b64Char_ne_pad _ (by omega)
      have h2 : b64Char (a % 4 * 16 + b / 16) ≠ '=' :=
        b64Char_ne_pad _ (by omega)
      have h3 : b64Char (b % 16 * 4) ≠ '=' := b64Char_ne_pad _ (by omega)
      have e1 : b64Val (b64Char (a / 4)) = a / 4 := b64Val_b64Char _ (by omega)
      have e2 : b64Val (b64Char (a % 4 * 16 + b / 16)) = a % 4 * 16 + b / 16 :=
        b64Val_b64Char _ (by omega)
      have e3 : b64Val (b64Char (b % 16 * 4)) = b % 16 * 4 :=
        b64Val_b64Char _ (by omega)
      simp only [b64encodeBytes, List.filter_cons, List.filter_nil, h1, h2, h3,
        decide_eq_true_eq, ne_eq, not_true_eq_false, not_false_eq_true,
        if_true, if_false, List.map_cons, List.map_nil, e1, e2, e3,
        sextetsToBytes]
      have hx : a / 4 * 4 + (a % 4 * 16 + b / 16) / 16 = a := by omega
      have hy : (a % 4 * 16 + b / 16) % 16 * 16 + b % 16 * 4 / 4 = b := by omega
      rw [hx, hy]
  | a :: b :: c :: rest, h => by
      have ha : a < 256 := h a (by simp)
      have hb : b < 256 := h b (by simp)
      have hc : c < 256 := h c (by simp)
      have h1 : b64Char (a / 4) ≠ '=' := b64Char_ne_pad _ (by omega)
      have h2 : b64Char (a % 4 * 16 + b / 16) ≠ '=' :=
        b64Char_ne_pad _ (by omega)
      have h3 : b64Char (b % 16 * 4 + c / 64) ≠ '=' :=
        b64Char_ne_pad _ (by omega)
      have h4 : b64Char (c % 64) ≠ '=' := b64Char_ne_pad _ (by omega)
      have e1 : b64Val (b64Char (a / 4)) = a / 4 := b64Val_b64Char _ (by omega)
      have e2 : b64Val (b64Char (a % 4 * 16 + b / 16)) = a % 4 * 16 + b / 16 :=
        b64Val_b64Char _ (by omega)
      have e3 : b64Val (b64Char (b % 16 * 4 + c / 64)) = b % 16 * 4 + c / 64 :=
        b64Val_b64Char _ (by omega)
      have e4 : b64Val (b64Char (c % 64)) = c % 64 := b64Val_b64Char _ (by omega)
      have ih := b64_roundtrip_bytes rest (fun x hx => h x (by simp [hx]))
      show sextetsToBytes
          (((b64Char (a / 4) :: b64Char (a % 4 * 16 + b / 16) ::
              b64Char (b % 16 * 4 + c / 64) :: b64Char (c % 64) ::
              b64encodeBytes rest).filter fun ch => ch ≠ '=').map b64Val) =
        a :: b :: c :: rest
      simp only [List.filter_cons, h1, h2, h3, h4, decide_eq_true_eq, ne_eq,
        not_true_eq_false, not_false_eq_true, if_true, if_false,
        List.map_cons, e1, e2, e3, e4, sextetsToBytes, ih]
      have hx : a / 4 * 4 + (a % 4 * 16 + b / 16) / 16 = a := by omega
      have hy : (a % 4 * 16 + b / 16) % 16 * 16 + (b % 16 * 4 + c / 64) / 4 = b := by
        omega
      have hz : (b % 16 * 4 + c / 64) % 4 * 64 + c % 64 = c := by omega
      rw [hx, hy, hz]

theorem utf8EncodeChar_lt (c : Char) : ∀ x ∈ utf8EncodeChar c, x < 256 := by
  have hv : c.toNat < 1114112 := by
    show c.val.toNat < 1114112
    rcases c.valid with hval | ⟨_, hval⟩ <;> omega
  simp only [utf8EncodeChar]
  split_ifs with hc1 hc2 hc3 <;> intro x hx <;> fin_cases hx <;> omega

theorem utf8Encode_lt (s : String) : ∀ x ∈ utf8Encode s, x < 256 := by
  intro x hx
  simp only [utf8Encode] at hx
  obtain ⟨c, _, hcx⟩ := List.mem_flatMap.mp hx
  exact utf8EncodeChar_lt c x hcx

/-- C9: `Base64Exporter.encode` emits the fixed `data:image/svg+xml;base64,`
head followed by a payload whose standard base64 decoding is byte-for-byte
the UTF-8 encoding of the input SVG string. -/
theorem C9_base64_roundtrip (svg_content : String) :
    ∃ payload : String,
      Base64Exporter.encode svg_content = dataURIHead ++ payload ∧
      b64decode payload = utf8Encode svg_content := by
  refine ⟨String.mk (b64encodeBytes (utf8Encode svg_content)), rfl, ?_⟩
  exact b64_roundtrip_bytes _ (utf8Encode_lt svg_content)

/-! ## Claim C8 -/

/-- Counterexample fixture for C8: one component `a`, one connection whose
`from` reference `zq` is undeclared. -/
def c8doc : DefDoc :=
  { components := some [{ id := some "a", label := some "A" }],
    connections := some [{ from_node := some "zq", to_node := some "a" }] }

/-- Counterexample to C8: validation of the document does fail with a
single error naming connection index 0, but the message
`Connection 0: invalid 'from' node` nowhere contains the missing id `zq` —
the claim's "error naming … the missing id" is false. -/
theorem C8_counterexample :
    cmd_validate c8doc = 1 ∧
    validateErrors c8doc = ["Connection 0: invalid \x27from\x27 node"] ∧
    strContains "Connection 0: invalid \x27from\x27 node" "zq" = false := by
  decide

/-- C8 (amended): the `validate` command returns 0 exactly when no error
was accumulated; every connection whose `from` (resp. `to`) reference is
undeclared contributes its own error naming the connection index (so all
bad references are enumerated, not just the first) but not the missing id;
and a document whose components all carry `id` and `label` and whose
references all resolve passes validation. -/
theorem C8_validate_enumerates_bad_refs (d : DefDoc) :
    (cmd_validate d = 0 ↔ validateErrors d = []) ∧
    (∀ i conn, (i, conn) ∈ enumFrom 0 (docConnections d) →
      (conn.from_node ∉ nodeIds d ∧ conn.fromAlt ∉ nodeIds d →
        s!"Connection {i}: invalid \x27from\x27 node" ∈ validateErrors d ∧
        strContains s!"Connection {i}: invalid \x27from\x27 node"
          (toString i) = true) ∧
      (conn.to_node ∉ nodeIds d ∧ conn.toAlt ∉ nodeIds d →
        s!"Connection {i}: invalid \x27to\x27 node" ∈ validateErrors d ∧
        strContains s!"Connection {i}: invalid \x27to\x27 node"
          (toString i) = true)) ∧
    ((d.components ≠ none ∨ d.nodes ≠ none) →
      (∀ ce ∈ docComponents d, ce.id ≠ none ∧ ce.label ≠ none) →
      (∀ conn ∈ docConnections d,
        (conn.from_node ∈ nodeIds d ∨ conn.fromAlt ∈ nodeIds d) ∧
        (conn.to_node ∈ nodeIds d ∨ conn.toAlt ∈ nodeIds d)) →
      cmd_validate d = 0) := by
  have hcode : cmd_validate d = 0 ↔ validateErrors d = [] := by
    unfold cmd_validate
    split_ifs with h
    · simp [h]
    · simp [h]
  refine ⟨hcode, fun i conn hmem => ⟨fun hbad => ⟨?_, ?_⟩, fun hbad => ⟨?_, ?_⟩⟩,
    fun hfield hcomps hconns => ?_⟩
  · simp only [validateErrors, List.mem_append]
    refine Or.inr (List.mem_flatMap.mpr ⟨(i, conn), hmem, ?_⟩)
    simp only [if_pos hbad, List.mem_append]
    exact Or.inl (List.mem_singleton.mpr rfl)
  · show strContains ("Connection " ++ toString i ++ ": invalid \x27from\x27 node")
      (toString i) = true
    simp only [strContains, String.data_append]
    rw [List.append_assoc]
    exact containsSub_append_right _ (containsSub_self_append _ _)
  · simp only [validateErrors, List.mem_append]
    refine Or.inr (List.mem_flatMap.mpr ⟨(i, conn), hmem, ?_⟩)
    simp only [List.mem_append]
    exact Or.inr (by rw [if_pos hbad]; exact List.mem_singleton.mpr rfl)
  · show strContains ("Connection " ++ toString i ++ ": invalid \x27to\x27 node")
      (toString i) = true
    simp only [strContains, String.data_append]
    rw [List.append_assoc]
    exact containsSub_append_right _ (containsSub_self_append _ _)
  · rw [hcode]
    simp only [validateErrors, List.append_eq_nil]
    refine ⟨⟨?_, ?_⟩, ?_⟩
    · rw [if_neg]
      rintro ⟨hc, hn⟩
      rcases hfield with h | h <;> exact h (by assumption)
    · rw [List.flatMap_eq_nil_iff]
      rintro ⟨j, ce⟩ hje
      have hce := hcomps ce (mem_of_mem_enumFrom hje)
      simp only [if_neg hce.1, if_neg hce.2, List.append_nil]
    · rw [List.flatMap_eq_nil_iff]
      rintro ⟨j, conn⟩ hje
      have hcn := hconns conn (mem_of_mem_enumFrom hje)
      rw [if_neg, if_neg, List.append_nil]
      · rintro ⟨h1, h2⟩
        rcases hcn.2 with h | h <;> exact absurd h (by assumption)
      · rintro ⟨h1, h2⟩
        rcases hcn.1 with h | h <;> exact absurd h (by assumption)

/-- Witness fixture for C8: the counterexample document with the bad
reference corrected to the declared id `a`. -/
def c8fixed : DefDoc :=
  { components := some [{ id := some "a", label := some "A" }],
    connections := some [{ from_node := some "a", to_node := some "a" }] }

/-- Witness for C8: the corrected document passes validation with exit
code 0. -/
theorem C8_witness :
    (c8fixed.components ≠ none ∨ c8fixed.nodes ≠ none) ∧
    cmd_validate c8fixed = 0 :=
  ⟨by decide,
   (C8_validate_enumerates_bad_refs c8fixed).2.2 (by decide) (by decide)
     (by decide)⟩

/-! ## Claim C2 -/

/-- Counterexample fixture for C2: a component with an explicit position
at the canvas center. -/
def c2a : Component :=
  { id := "a", type := .service, label := "A", position := some (450, 300) }

/-- Counterexample fixture for C2: a distinct component with the same
explicit position. -/
def c2b : Component :=
  { id := "b", type := .service, label := "B", position := some (450, 300) }

theorem c2_step_fixed (F : ForceDirectedLayout) (sqrtF : ℚ → ℚ) :
    fdStep F sqrtF {} [c2a, c2b] [] 450 300
      ([("a", ((450 : ℚ), (300 : ℚ))), ("b", (450, 300))],
       [("a", ((0 : ℚ), (0 : ℚ))), ("b", (0, 0))]) =
      ([("a", ((450 : ℚ), (300 : ℚ))), ("b", (450, 300))],
       [("a", ((0 : ℚ), (0 : ℚ))), ("b", (0, 0))]) := by
  norm_num [fdStep, fdRepulsion, fdRepulsionInner, fdAttraction, fdGravity,
    fdApply, buildDict, dset, dget, pget, fupd, c2a, c2b, min_def, max_def]
  exact fun h => h.symm

theorem c2_iterate_fixed (F : ForceDirectedLayout) (sqrtF : ℚ → ℚ) :
    ∀ n : ℕ,
      fdIterate F sqrtF {} [c2a, c2b] [] 450 300 n
        ([("a", ((450 : ℚ), (300 : ℚ))), ("b", (450, 300))],
         [("a", ((0 : ℚ), (0 : ℚ))), ("b", (0, 0))]) =
        ([("a", ((450 : ℚ), (300 : ℚ))), ("b", (450, 300))],
         [("a", ((0 : ℚ), (0 : ℚ))), ("b", (0, 0))])
  | 0 => rfl
  | n + 1 => by
      rw [fdIterate, c2_step_fixed]
      exact c2_iterate_fixed F sqrtF n

/-- Counterexample to C2: two distinct components given the same explicit
position `(450, 300)` (the default canvas center) stay coincident through
every simulation step — repulsion vanishes on a zero displacement — so the
default force-directed layout assigns both the same final point. -/
theorem C2_counterexample :
    c2a ≠ c2b ∧
    dget (ForceDirectedLayout.calculate_positions {} Rat.sqrt
      (fun _ _ => 0) (fun _ _ => 0) (fun _ => 0) [c2a, c2b] [] {}).positions
      "a" = some ((450 : ℚ), (300 : ℚ)) ∧
    dget (ForceDirectedLayout.calculate_positions {} Rat.sqrt
      (fun _ _ => 0) (fun _ _ => 0) (fun _ => 0) [c2a, c2b] [] {}).positions
      "b" = some ((450 : ℚ), (300 : ℚ)) := by
  refine ⟨by simp [c2a, c2b], ?_⟩
  unfold ForceDirectedLayout.calculate_positions
  rw [if_neg (by simp : ¬ ([c2a, c2b] : List Component) = [])]
  norm_num [min_def]
  have h1 : fdInit (fun _ _ => (0 : ℚ)) (fun _ _ => 0) (fun _ => 0)
      450 300 200 2 [c2a, c2b] =
      ([("a", ((450 : ℚ), (300 : ℚ))), ("b", (450, 300))],
       [("a", ((0 : ℚ), (0 : ℚ))), ("b", (0, 0))], 0) := by
    norm_num [fdInit, enumFrom, c2a, c2b, dset]
    decide
  rw [h1]
  dsimp only
  rw [c2_iterate_fixed]
  constructor <;> rfl

/-- C2 (amended): the force-directed simulation is deterministic — it is a
pure function of the component/connection lists, the config, and the fixed
seeded draw sequence and libm functions (seed 42 is hard-coded), so two
runs on the same inputs coincide.  (The no-collapse half of the original
claim is refuted separately.) -/
theorem C2_force_layout_deterministic (F : ForceDirectedLayout)
    (sqrtF : ℚ → ℚ) (cosF sinF : ℕ → ℕ → ℚ) (uniform : ℕ → ℚ)
    (components : List Component) (connections : List Connection)
    (config : SchematicConfig) :
    F.calculate_positions sqrtF cosF sinF uniform components connections
        config =
      F.calculate_positions sqrtF cosF sinF uniform components connections
        config := rfl
